import Mathlib

set_option maxHeartbeats 1000000

/-
Verification of the resilient DNS proxy (src/resilient_dns.py).

The development shallowly embeds the three components of the program:

* `PhoneBook` — the persistent store (class `PhoneBook`).  Its JSON-object
  cache is modelled as a total function `String → List String`; a key that
  is absent from the dict maps to `[]`, matching `self.cache.get(key, [])`.
  Disk writes and the log line are effects; `update` returns them as data
  in `UpdateResult`.  Python computes `combined = list(existing | incoming)`
  whose element order (and deduplication) comes from the unordered `set`
  type; the embedding fixes the order `existing ++ freshly_added`, which
  has exactly the same members, and every theorem below is stated in terms
  of membership only, never of element order or multiplicity.

* the health probe (`UniversalResolver.check_ip_health` / `try_connect`) —
  the outcome of `socket.create_connection((ip, port))` is a parameter
  `connectOK : String → Nat → Bool` of the environment: any `OSError`
  (refused / timeout / unreachable) is `false`, a successful connect `true`.

* the resolution policy (`UniversalResolver.resolve`) — the upstream
  resolver (`dns.resolver`, an external collaborator) is a parameter of the
  environment returning `Except Unit …`: `Except.error` models any raised
  exception, which the source catches with a blanket `except`.
-/

/-- The persistent store state: the in-memory `self.cache` dict. -/
structure PhoneBook where
  cache : String → List String

/-- Result of `PhoneBook.update`: the store afterwards, whether a disk
write was attempted, and the content of the printed log line (the key and
the freshly added values), `none` when nothing was printed. -/
structure UpdateResult where
  book : PhoneBook
  wrote : Bool
  log : Option (String × List String)

/-- The empty store (`{}`). -/
def PhoneBook.empty : PhoneBook := ⟨fun _ => []⟩

/-- `PhoneBook.get`: `list(self.cache.get(key, []))`.  The `list(...)` copy
is the identity in a pure model. -/
def PhoneBook.get (pb : PhoneBook) (key : String) : List String :=
  pb.cache key

/-- `PhoneBook.update`: `freshly_added = incoming - existing`; if empty,
return without writing or printing; otherwise store `existing | incoming`,
dump the cache to disk and print the log line.  `existing | incoming` has
the same members as `existing ++ freshly_added`, the order the embedding
fixes (see the header comment). -/
def PhoneBook.update (pb : PhoneBook) (key : String) (new_data : List String) :
    UpdateResult :=
  let existing := pb.cache key
  let freshly_added := new_data.filter (fun v => decide (v ∉ existing))
  if freshly_added.isEmpty then
    ⟨pb, false, none⟩
  else
    ⟨⟨fun k => if k = key then existing ++ freshly_added else pb.cache k⟩,
      true, some (key, freshly_added)⟩

/-- A sequence of calls `update(key, V1); update(key, V2); …`. -/
def PhoneBook.updateSeq (pb : PhoneBook) (key : String) :
    List (List String) → PhoneBook
  | [] => pb
  | V :: Vs => PhoneBook.updateSeq (pb.update key V).book key Vs

/-- Exceptions relevant to `PhoneBook._load`.  `osError` stands for any
`OSError` other than `FileNotFoundError`, e.g. `PermissionError` raised by
`open()` on an unreadable file. -/
inductive PyExc
  | fileNotFound
  | jsonDecodeError
  | osError
deriving DecidableEq

/-- Outcome of the body `json.load(open(self.filepath))`: either a raised
exception or the parsed JSON object.  The disk is external, so the outcome
is a parameter of the embedding.  (A successfully parsed value is taken to
be a JSON object, i.e. a mapping.) -/
inductive ReadParse
  | raises (e : PyExc)
  | returns (m : String → List String)

/-- `PhoneBook._load`: the `try` block catches exactly
`(FileNotFoundError, json.JSONDecodeError)` and returns `{}`; any other
exception propagates to the caller. -/
def PhoneBook.load : ReadParse → Except PyExc (String → List String)
  | .returns m => .ok m
  | .raises .fileNotFound => .ok PhoneBook.empty.cache
  | .raises .jsonDecodeError => .ok PhoneBook.empty.cache
  | .raises .osError => .error .osError

/-- The environment of `UniversalResolver`: the outcome of each TCP connect
attempt (`socket.create_connection((ip, port))` — `true` for a successful
connection, `false` for any `OSError`), and the upstream resolver for A and
MX queries (`dns.resolver`).  `Except.error ()` models any exception raised
by the upstream call, which the source catches with a blanket `except`.
For an MX answer the upstream yields `r.preference` and `str(r.exchange)`. -/
structure Env where
  connectOK : String → Nat → Bool
  upstreamA : String → Except Unit (List String)
  upstreamMX : String → Except Unit (List (Nat × String))

/-- `UniversalResolver.try_connect`: try each port in order, returning
`true` at the first successful connection, `false` once all ports failed. -/
def try_connect (env : Env) (ip : String) : List Nat → Bool
  | [] => false
  | p :: ps => if env.connectOK ip p then true else try_connect env ip ps

/-- `UniversalResolver.check_ip_health`: the four port phases
(web, messaging, mail, infrastructure), each short-circuiting. -/
def check_ip_health (env : Env) (ip : String) : Bool :=
  if try_connect env ip [443, 80] then true
  else if try_connect env ip [5222, 5223, 5190, 6667, 6697] then true
  else if try_connect env ip [25, 465, 587, 993, 995] then true
  else if try_connect env ip [22, 3389, 1883, 21, 53] then true
  else false

/-- Instrumented `try_connect`: additionally records, in order, every port
on which a connection was attempted. -/
def try_connectTrace (env : Env) (ip : String) : List Nat → Bool × List Nat
  | [] => (false, [])
  | p :: ps =>
    if env.connectOK ip p then (true, [p])
    else
      let r := try_connectTrace env ip ps
      (r.1, p :: r.2)

/-- Instrumented `check_ip_health`: same phases as the source, recording
every attempted port in order. -/
def check_ip_healthTrace (env : Env) (ip : String) : Bool × List Nat :=
  let r1 := try_connectTrace env ip [443, 80]
  if r1.1 then (true, r1.2)
  else
    let r2 := try_connectTrace env ip [5222, 5223, 5190, 6667, 6697]
    if r2.1 then (true, r1.2 ++ r2.2)
    else
      let r3 := try_connectTrace env ip [25, 465, 587, 993, 995]
      if r3.1 then (true, r1.2 ++ r2.2 ++ r3.2)
      else
        let r4 := try_connectTrace env ip [22, 3389, 1883, 21, 53]
        (r4.1, r1.2 ++ r2.2 ++ r3.2 ++ r4.2)

/-- Every probe port, in the exact order `check_ip_health` tries them. -/
def allProbePorts : List Nat :=
  [443, 80, 5222, 5223, 5190, 6667, 6697, 25, 465, 587, 993, 995,
   22, 3389, 1883, 21, 53]

/-- Query types with dedicated handling; `other` stands for every
`QTYPE` that is neither AAAA, nor A, nor MX. -/
inductive QType
  | A
  | AAAA
  | MX
  | other
deriving DecidableEq

/-- DNS response codes used by the program.  `request.reply()` starts from
`NOERROR`, the dnslib default. -/
inductive RCode
  | NOERROR
  | SERVFAIL
deriving DecidableEq

/-- An answer record added via `reply.add_answer(RR(...))`. -/
inductive Answer
  | arec (qname ip : String) (ttl : Nat)
  | mx (qname exchange : String) (preference : Int) (ttl : Nat)
deriving DecidableEq

/-- The reply as the program shapes it: response code and answer records. -/
structure Reply where
  rcode : RCode
  answers : List Answer
deriving DecidableEq

/-- Models Python `qname.rstrip(".")`: remove every trailing dot. -/
def rstripDot (s : String) : String :=
  String.mk ((s.data.reverse.dropWhile (fun c => c = '.')).reverse)

/-- Digit run of a Python integer literal body: decimal digits in which a
single underscore may stand between two digits (`int("1_0")` is 10, while
a leading, trailing or doubled underscore raises `ValueError`). -/
def pyDigitsAux : Nat → List Char → Option Nat
  | acc, [] => some acc
  | acc, '_' :: c :: rest =>
    if c.isDigit then pyDigitsAux (acc * 10 + (c.toNat - 48)) rest else none
  | _, ['_'] => none
  | acc, c :: rest =>
    if c.isDigit then pyDigitsAux (acc * 10 + (c.toNat - 48)) rest else none

/-- Nonempty digit run, not starting with an underscore. -/
def pyDigits : List Char → Option Nat
  | [] => none
  | '_' :: _ => none
  | c :: rest => if c.isDigit then pyDigitsAux (c.toNat - 48) rest else none

/-- Models Python `int(s)` on the strings the program can meet: surrounding
whitespace is stripped, then an optional sign precedes a decimal digit run;
`none` models a raised `ValueError`.  (Python also accepts non-ASCII
decimal digits; those are outside this model.) -/
def pyInt (s : String) : Option Int :=
  let cs := ((s.data.dropWhile Char.isWhitespace).reverse.dropWhile
    Char.isWhitespace).reverse
  match cs with
  | '-' :: rest => (pyDigits rest).map (fun n => -(n : Int))
  | '+' :: rest => (pyDigits rest).map (fun n => (n : Int))
  | l => (pyDigits l).map (fun n => (n : Int))

/-- Models `entry.split(":", 1)` followed by 2-tuple unpacking: the part
before the first colon and the part after it, `none` when there is no
colon (unpacking a 1-element list raises `ValueError`). -/
def splitOnceColon : List Char → Option (List Char × List Char)
  | [] => none
  | c :: rest =>
    if c = ':' then some ([], rest)
    else (splitOnceColon rest).map (fun pr => (c :: pr.1, pr.2))

/-- One iteration of the MX answer loop body:
`pref, exchange = entry.split(":", 1); ... int(pref) ...`.  `none` models a
raised exception, swallowed by the bare `except` (the entry is skipped). -/
def parseMXEntry (s : String) : Option (Int × String) :=
  match splitOnceColon s.data with
  | none => none
  | some pr =>
    match pyInt (String.mk pr.1) with
    | none => none
    | some n => some (n, String.mk pr.2)

/-- The A branch up to the reply construction: probe the cached addresses;
when none is valid, fall back to the upstream resolver, and on a non-empty
fresh result update the store and use it directly.  Returns `valid_ips`
and the store afterwards. -/
def aFetch (env : Env) (pb : PhoneBook) (domain : String) :
    List String × PhoneBook :=
  let cached_ips := pb.get domain
  let valid_ips := cached_ips.filter (fun ip => check_ip_health env ip)
  if valid_ips.isEmpty then
    match env.upstreamA domain with
    | .error _ => (valid_ips, pb)
    | .ok new_ips =>
      if new_ips.isEmpty then (valid_ips, pb)
      else (new_ips, (pb.update domain new_ips).book)
  else (valid_ips, pb)

/-- The MX branch up to the reply construction: read the cache; when it is
empty, fall back to the upstream resolver, and on a non-empty encoded
result update the store and use it.  Returns `cached_mx` and the store
afterwards. -/
def mxFetch (env : Env) (pb : PhoneBook) (key domain : String) :
    List String × PhoneBook :=
  let cached_mx := pb.get key
  if cached_mx.isEmpty then
    match env.upstreamMX domain with
    | .error _ => (cached_mx, pb)
    | .ok answers =>
      let new_mx := answers.map (fun pe => toString pe.1 ++ ":" ++ pe.2)
      if new_mx.isEmpty then (cached_mx, pb)
      else (new_mx, (pb.update key new_mx).book)
  else (cached_mx, pb)

/-- `UniversalResolver.resolve`: dispatch on the query type.  AAAA is
suppressed; A probes the cache and falls back to upstream, answering
`SERVFAIL` when nothing valid remains; MX reads the cache (upstream on
miss) and rebuilds each parseable `preference:exchangeHost` entry,
always with `NOERROR`; every other type is an empty `NOERROR` reply.
Returns the reply together with the store afterwards. -/
def resolve (env : Env) (pb : PhoneBook) (qname : String) (qtype : QType) :
    Reply × PhoneBook :=
  let domain := rstripDot qname
  match qtype with
  | .AAAA => (⟨.NOERROR, []⟩, pb)
  | .A =>
    let r := aFetch env pb domain
    if r.1.isEmpty then (⟨.SERVFAIL, []⟩, r.2)
    else (⟨.NOERROR, r.1.map (fun ip => .arec qname ip 60)⟩, r.2)
  | .MX =>
    let r := mxFetch env pb ("MX:" ++ domain) domain
    (⟨.NOERROR, r.1.filterMap (fun entry =>
      (parseMXEntry entry).map (fun px => .mx qname px.2 px.1 60))⟩, r.2)
  | .other => (⟨.NOERROR, []⟩, pb)

/-- A fully dead network: every connect attempt fails and the upstream
resolver raises on every query. -/
def envDead : Env := ⟨fun _ _ => false, fun _ => .error (), fun _ => .error ()⟩

/-- A network where probing fails everywhere but the upstream resolver
returns the single fresh address 203.0.113.5 for every A query. -/
def envFresh : Env :=
  ⟨fun _ _ => false, fun _ => .ok ["203.0.113.5"], fun _ => .error ()⟩

/-- A store caching one (dead) address for example.com. -/
def pbDead : PhoneBook :=
  (PhoneBook.empty.update "example.com" ["192.0.2.1"]).book

/-! ### Store lemmas -/

theorem PhoneBook.mem_get_update_self (pb : PhoneBook) (k : String)
    (V : List String) (v : String) :
    v ∈ ((pb.update k V).book).get k ↔ v ∈ pb.get k ∨ v ∈ V := by
  simp only [PhoneBook.update, PhoneBook.get]
  split
  · rename_i h0
    rw [List.isEmpty_iff] at h0
    have hsub := List.filter_eq_nil_iff.mp h0
    constructor
    · exact Or.inl
    · rintro (hv | hv)
      · exact hv
      · simpa using hsub v hv
  · by_cases hv2 : v ∈ pb.cache k <;> simp [hv2, List.mem_filter]

theorem PhoneBook.get_update_other (pb : PhoneBook) (k k' : String)
    (V : List String) (h : k' ≠ k) :
    ((pb.update k V).book).get k' = pb.get k' := by
  simp only [PhoneBook.update, PhoneBook.get]
  split
  · rfl
  · simp [h]

theorem PhoneBook.mem_get_update_mono (pb : PhoneBook) (k k' : String)
    (V : List String) (v : String) (h : v ∈ pb.get k') :
    v ∈ ((pb.update k V).book).get k' := by
  by_cases hk : k' = k
  · subst hk
    exact (pb.mem_get_update_self k' V v).mpr (Or.inl h)
  · rw [pb.get_update_other k k' V hk]
    exact h

theorem PhoneBook.update_noop_of_subset (pb : PhoneBook) (k : String)
    (V : List String) (h : ∀ v ∈ V, v ∈ pb.get k) :
    pb.update k V = ⟨pb, false, none⟩ := by
  have h0 : V.filter (fun v => decide (v ∉ pb.cache k)) = [] := by
    rw [List.filter_eq_nil_iff]
    intro a ha
    simp only [decide_eq_true_eq, not_not]
    exact h a ha
  simp [PhoneBook.update, h0]
  exact h

theorem PhoneBook.mem_get_updateSeq (pb : PhoneBook) (k : String)
    (Vs : List (List String)) (v : String) :
    v ∈ (pb.updateSeq k Vs).get k ↔ v ∈ pb.get k ∨ ∃ V ∈ Vs, v ∈ V := by
  induction Vs generalizing pb with
  | nil => simp [PhoneBook.updateSeq]
  | cons V Vs ih =>
    rw [PhoneBook.updateSeq, ih, PhoneBook.mem_get_update_self]
    simp only [List.mem_cons]
    constructor
    · rintro ((h | h) | ⟨W, hW, hv⟩)
      · exact Or.inl h
      · exact Or.inr ⟨V, Or.inl rfl, h⟩
      · exact Or.inr ⟨W, Or.inr hW, hv⟩
    · rintro (h | ⟨W, (rfl | hW), hv⟩)
      · exact Or.inl (Or.inl h)
      · exact Or.inl (Or.inr hv)
      · exact Or.inr ⟨W, hW, hv⟩

theorem PhoneBook.mem_get_updateSeq_mono (pb : PhoneBook) (k k' : String)
    (Vs : List (List String)) (v : String) (h : v ∈ pb.get k') :
    v ∈ (pb.updateSeq k Vs).get k' := by
  induction Vs generalizing pb with
  | nil => exact h
  | cons V Vs ih =>
    rw [PhoneBook.updateSeq]
    exact ih _ (pb.mem_get_update_mono k k' V v h)

/-! ### Store claims -/

/-- Claim C1: for every key `k` and every sequence of calls
`update(k, V1), update(k, V2), …`, the value set subsequently returned by
`get(k)` equals (as a set) the union of the initial set for `k` and all
the `Vi`; and no update ever removes a value from any key's set. -/
theorem updateSeq_get_eq_union (pb : PhoneBook) (k : String)
    (Vs : List (List String)) :
    (∀ v, v ∈ (pb.updateSeq k Vs).get k ↔ v ∈ pb.get k ∨ ∃ V ∈ Vs, v ∈ V) ∧
    (∀ k' v, v ∈ pb.get k' → v ∈ (pb.updateSeq k Vs).get k') :=
  ⟨fun v => pb.mem_get_updateSeq k Vs v,
   fun k' v h => pb.mem_get_updateSeq_mono k k' Vs v h⟩

/-- Claim C2: when every value of `V` is already stored under `k`,
`update(k, V)` attempts no disk write, prints no log line, and leaves
`get(k)` unchanged. -/
theorem update_subset_noop (pb : PhoneBook) (k : String) (V : List String)
    (h : ∀ v ∈ V, v ∈ pb.get k) :
    (pb.update k V).wrote = false ∧ (pb.update k V).log = none ∧
      (pb.update k V).book.get k = pb.get k := by
  rw [pb.update_noop_of_subset k V h]
  exact ⟨rfl, rfl, rfl⟩

/-- Witness for claim C2 at a concrete store and value list. -/
theorem update_subset_noop_witness :
    ("x" ∈ ((PhoneBook.empty.update "a" ["x", "y"]).book).get "a") ∧
    (((PhoneBook.empty.update "a" ["x", "y"]).book.update "a" ["x"]).wrote = false ∧
      ((PhoneBook.empty.update "a" ["x", "y"]).book.update "a" ["x"]).log = none ∧
      ((PhoneBook.empty.update "a" ["x", "y"]).book.update "a" ["x"]).book.get "a" =
        (PhoneBook.empty.update "a" ["x", "y"]).book.get "a") :=
  ⟨by decide, update_subset_noop _ "a" ["x"] (by decide)⟩

/-- Claim C3, counterexample: an unreadable file (an `OSError` that is not
`FileNotFoundError`, e.g. `PermissionError`) is not caught by `_load`; the
error propagates to the caller instead of yielding a mapping. -/
theorem load_oserror_propagates :
    ¬ ∃ m, PhoneBook.load (.raises .osError) = Except.ok m := by
  rintro ⟨m, h⟩
  simp [PhoneBook.load] at h

/-- Claim C3, amended: for every outcome of reading the file other than a
raised `OSError`-other-than-absence, `load()` returns a mapping — the
parsed snapshot on success and the empty mapping when the file is absent
or fails JSON parsing — without propagating an error. -/
theorem load_total_unless_oserror (o : ReadParse)
    (h : o ≠ .raises .osError) :
    ∃ m, PhoneBook.load o = Except.ok m ∧
      (∀ m₀, o = .returns m₀ → m = m₀) ∧
      (∀ e, o = .raises e → m = PhoneBook.empty.cache) := by
  cases o with
  | returns m =>
    refine ⟨m, rfl, ?_, ?_⟩
    · intro m₀ hm
      cases hm
      rfl
    · intro e he
      cases he
  | raises e =>
    cases e with
    | fileNotFound =>
      refine ⟨PhoneBook.empty.cache, rfl, ?_, fun _ _ => rfl⟩
      intro m₀ hm
      cases hm
    | jsonDecodeError =>
      refine ⟨PhoneBook.empty.cache, rfl, ?_, fun _ _ => rfl⟩
      intro m₀ hm
      cases hm
    | osError => exact absurd rfl h

/-- Witness for amended claim C3 at the concrete outcome "file absent". -/
theorem load_total_unless_oserror_witness :
    (ReadParse.raises .fileNotFound ≠ ReadParse.raises .osError) ∧
    ∃ m, PhoneBook.load (.raises .fileNotFound) = Except.ok m ∧
      (∀ m₀, ReadParse.raises .fileNotFound = ReadParse.returns m₀ → m = m₀) ∧
      (∀ e, ReadParse.raises .fileNotFound = ReadParse.raises e →
        m = PhoneBook.empty.cache) :=
  ⟨by intro h; injection h with h; exact PyExc.noConfusion h,
   load_total_unless_oserror _ (by intro h; injection h with h; exact PyExc.noConfusion h)⟩

/-- Claim C10: `update(k, V)` leaves the value set returned by `get(k')`
unchanged for every key `k'` distinct from `k`. -/
theorem update_frame_other_key (pb : PhoneBook) (k k' : String)
    (V : List String) (h : k' ≠ k) :
    ((pb.update k V).book).get k' = pb.get k' :=
  pb.get_update_other k k' V h

/-- Witness for claim C10 at concrete distinct keys. -/
theorem update_frame_other_key_witness :
    ("b" : String) ≠ "a" ∧
      ((PhoneBook.empty.update "a" ["x"]).book).get "b" = PhoneBook.empty.get "b" :=
  ⟨by decide, update_frame_other_key PhoneBook.empty "a" "b" ["x"] (by decide)⟩

/-! ### Health-probe lemmas -/

theorem try_connectTrace_fst (env : Env) (ip : String) (ports : List Nat) :
    (try_connectTrace env ip ports).1 = try_connect env ip ports := by
  induction ports with
  | nil => rfl
  | cons p ps ih =>
    simp only [try_connectTrace, try_connect]
    by_cases h : env.connectOK ip p <;> simp [h, ih]

theorem try_connectTrace_eq (env : Env) (ip : String) (ports : List Nat) :
    try_connectTrace env ip ports =
      (try_connect env ip ports,
        ports.takeWhile (fun p => !(env.connectOK ip p)) ++
          (ports.dropWhile (fun p => !(env.connectOK ip p))).take 1) := by
  induction ports with
  | nil => rfl
  | cons p ps ih =>
    by_cases h : env.connectOK ip p
    · simp [try_connectTrace, try_connect, h]
    · simp [try_connectTrace, try_connect, h, ih]

theorem try_connectTrace_append (env : Env) (ip : String) (l1 l2 : List Nat) :
    try_connectTrace env ip (l1 ++ l2) =
      if (try_connectTrace env ip l1).1 then try_connectTrace env ip l1
      else ((try_connectTrace env ip l2).1,
        (try_connectTrace env ip l1).2 ++ (try_connectTrace env ip l2).2) := by
  induction l1 with
  | nil => simp [try_connectTrace]
  | cons p ps ih =>
    by_cases h : env.connectOK ip p
    · simp [try_connectTrace, h]
    · by_cases h2 : (try_connectTrace env ip ps).1
      · simp [try_connectTrace, h, h2, ih, Prod.ext_iff]
      · simp [try_connectTrace, h, h2, ih, Prod.ext_iff]

theorem check_ip_healthTrace_eq_trace (env : Env) (ip : String) :
    check_ip_healthTrace env ip = try_connectTrace env ip allProbePorts := by
  have hsplit : allProbePorts =
      [443, 80] ++ ([5222, 5223, 5190, 6667, 6697] ++
        ([25, 465, 587, 993, 995] ++ [22, 3389, 1883, 21, 53])) := rfl
  rw [hsplit, try_connectTrace_append, try_connectTrace_append,
    try_connectTrace_append]
  simp only [check_ip_healthTrace]
  by_cases h1 : (try_connectTrace env ip [443, 80]).1
  · simp [h1, Prod.ext_iff]
  · by_cases h2 : (try_connectTrace env ip [5222, 5223, 5190, 6667, 6697]).1
    · simp [h1, h2, Prod.ext_iff]
    · by_cases h3 : (try_connectTrace env ip [25, 465, 587, 993, 995]).1
      · simp [h1, h2, h3, List.append_assoc, Prod.ext_iff]
      · simp [h1, h2, h3, List.append_assoc, Prod.ext_iff]

theorem try_connect_eq_any (env : Env) (ip : String) (ports : List Nat) :
    try_connect env ip ports = ports.any (fun p => env.connectOK ip p) := by
  induction ports with
  | nil => rfl
  | cons p ps ih =>
    by_cases h : env.connectOK ip p <;> simp [try_connect, h, ih]

/-- Claim C6: the reachability check attempts TCP connections in exactly
the order 443, 80, 5222, 5223, 5190, 6667, 6697, 25, 465, 587, 993, 995,
22, 3389, 1883, 21, 53: the attempted-port trace is the maximal prefix of
failing ports followed by the first succeeding port when one exists (so no
port after the first success is attempted), the check returns true exactly
when some listed port connects, and returns false exactly when every
listed port fails (in which case every port was attempted). -/
theorem check_ip_health_port_order (env : Env) (ip : String) :
    check_ip_healthTrace env ip
      = (check_ip_health env ip,
          allProbePorts.takeWhile (fun p => !(env.connectOK ip p)) ++
            (allProbePorts.dropWhile (fun p => !(env.connectOK ip p))).take 1) ∧
    (check_ip_health env ip = true ↔ ∃ p ∈ allProbePorts, env.connectOK ip p = true) ∧
    (check_ip_health env ip = false ↔ ∀ p ∈ allProbePorts, env.connectOK ip p = false) := by
  have hfst : check_ip_health env ip = try_connect env ip allProbePorts := by
    have h1 := check_ip_healthTrace_eq_trace env ip
    have h2 : (check_ip_healthTrace env ip).1 = check_ip_health env ip := by
      simp only [check_ip_healthTrace, check_ip_health, try_connectTrace_fst]
      by_cases h1 : try_connect env ip [443, 80] <;>
        by_cases h2 : try_connect env ip [5222, 5223, 5190, 6667, 6697] <;>
        by_cases h3 : try_connect env ip [25, 465, 587, 993, 995] <;>
        simp [h1, h2, h3, try_connectTrace_fst]
    rw [← h2, h1, try_connectTrace_fst]
  refine ⟨?_, ?_, ?_⟩
  · rw [check_ip_healthTrace_eq_trace, try_connectTrace_eq, hfst]
  · rw [hfst, try_connect_eq_any]
    simp [List.any_eq_true]
  · rw [hfst, try_connect_eq_any]
    constructor
    · intro h p hp
      by_contra hc
      have : allProbePorts.any (fun p => env.connectOK ip p) = true :=
        List.any_eq_true.mpr ⟨p, hp, by simpa using hc⟩
      rw [h] at this
      cases this
    · intro h
      by_contra hc
      have hany : allProbePorts.any (fun p => env.connectOK ip p) = true := by
        cases hval : allProbePorts.any (fun p => env.connectOK ip p)
        · exact absurd hval hc
        · rfl
      rcases List.any_eq_true.mp hany with ⟨p, hp, hpp⟩
      rw [h p hp] at hpp
      cases hpp

/-! ### Resolution-policy claims -/

/-- Claim C4: for every domain, a query of the suppressed address type
(AAAA) returns a reply with success status (NOERROR) and zero answer
records. -/
theorem resolve_aaaa_suppressed (env : Env) (pb : PhoneBook) (qname : String) :
    (resolve env pb qname QType.AAAA).1.rcode = RCode.NOERROR ∧
    (resolve env pb qname QType.AAAA).1.answers = [] :=
  ⟨rfl, rfl⟩

/-- Claim C5: for a domain with empty cache under both its bare key and its
MX key, and an upstream that raises or yields nothing, an A query returns
server-failure while an MX query returns success with zero answers. -/
theorem total_failure_asymmetry (env : Env) (pb : PhoneBook) (qname : String)
    (hA : pb.get (rstripDot qname) = [])
    (hMX : pb.get ("MX:" ++ rstripDot qname) = [])
    (huA : env.upstreamA (rstripDot qname) = .error () ∨
      env.upstreamA (rstripDot qname) = .ok [])
    (huMX : env.upstreamMX (rstripDot qname) = .error () ∨
      env.upstreamMX (rstripDot qname) = .ok []) :
    (resolve env pb qname QType.A).1 = ⟨RCode.SERVFAIL, []⟩ ∧
    (resolve env pb qname QType.MX).1 = ⟨RCode.NOERROR, []⟩ := by
  constructor
  · rcases huA with h | h <;> simp [resolve, aFetch, hA, h]
  · rcases huMX with h | h <;> simp [resolve, mxFetch, hMX, h]

/-- Witness for claim C5 at a concrete domain, empty store and a network
whose upstream raises on every query. -/
theorem total_failure_asymmetry_witness :
    (PhoneBook.empty.get (rstripDot "example.com.") = [] ∧
      PhoneBook.empty.get ("MX:" ++ rstripDot "example.com.") = [] ∧
      envDead.upstreamA (rstripDot "example.com.") = .error () ∧
      envDead.upstreamMX (rstripDot "example.com.") = .error ()) ∧
    ((resolve envDead PhoneBook.empty "example.com." QType.A).1 =
        ⟨RCode.SERVFAIL, []⟩ ∧
      (resolve envDead PhoneBook.empty "example.com." QType.MX).1 =
        ⟨RCode.NOERROR, []⟩) :=
  ⟨⟨rfl, rfl, rfl, rfl⟩,
    total_failure_asymmetry envDead PhoneBook.empty "example.com." rfl rfl
      (Or.inl rfl) (Or.inl rfl)⟩

/-- Claim C7: for an A query where no cached address passes the probe and
the upstream succeeds with a non-empty list, the reply carries exactly the
upstream addresses (used directly, unprobed), and the store afterwards
holds, under the domain, the union of the previously cached addresses and
the upstream ones — dead cached addresses are retained. -/
theorem dead_cache_fallback (env : Env) (pb : PhoneBook) (qname : String)
    (new_ips : List String)
    (hprobe : (pb.get (rstripDot qname)).filter
      (fun ip => check_ip_health env ip) = [])
    (hup : env.upstreamA (rstripDot qname) = .ok new_ips)
    (hne : new_ips ≠ []) :
    (resolve env pb qname QType.A).1 =
      ⟨RCode.NOERROR, new_ips.map (fun ip => Answer.arec qname ip 60)⟩ ∧
    (∀ v, v ∈ (resolve env pb qname QType.A).2.get (rstripDot qname) ↔
      v ∈ pb.get (rstripDot qname) ∨ v ∈ new_ips) := by
  have hne2 : new_ips.isEmpty = false := by
    cases new_ips
    · exact absurd rfl hne
    · rfl
  have hres : resolve env pb qname QType.A =
      (⟨RCode.NOERROR, new_ips.map (fun ip => Answer.arec qname ip 60)⟩,
        (pb.update (rstripDot qname) new_ips).book) := by
    simp [resolve, aFetch, hprobe, hup, hne2]
  rw [hres]
  exact ⟨rfl, fun v => pb.mem_get_update_self _ new_ips v⟩

/-- Witness for claim C7: a store caching one dead address, every probe
port failing, upstream returning a different live address; the reply holds
only the upstream address while the store keeps both. -/
theorem dead_cache_fallback_witness :
    ((pbDead.get (rstripDot "example.com.")).filter
        (fun ip => check_ip_health envFresh ip) = [] ∧
      envFresh.upstreamA (rstripDot "example.com.") = .ok ["203.0.113.5"] ∧
      (["203.0.113.5"] : List String) ≠ []) ∧
    (resolve envFresh pbDead "example.com." QType.A).1 =
      ⟨RCode.NOERROR, [Answer.arec "example.com." "203.0.113.5" 60]⟩ ∧
    "192.0.2.1" ∈ (resolve envFresh pbDead "example.com." QType.A).2.get
      (rstripDot "example.com.") ∧
    "203.0.113.5" ∈ (resolve envFresh pbDead "example.com." QType.A).2.get
      (rstripDot "example.com.") := by
  refine ⟨⟨by decide, rfl, by decide⟩, ?_, ?_, ?_⟩
  · exact (dead_cache_fallback envFresh pbDead "example.com." ["203.0.113.5"]
      (by decide) rfl (by decide)).1
  · exact ((dead_cache_fallback envFresh pbDead "example.com." ["203.0.113.5"]
      (by decide) rfl (by decide)).2 "192.0.2.1").mpr (Or.inl (by decide))
  · exact ((dead_cache_fallback envFresh pbDead "example.com." ["203.0.113.5"]
      (by decide) rfl (by decide)).2 "203.0.113.5").mpr (Or.inr (by decide))

/-- Claim C8: storing the entry `10:mail.example.com` under the key
`MX:example.com` and then serving an MX query for example.com reconstructs
an answer record with preference 10 and exchange host mail.example.com,
whatever the network does (the cache is non-empty, so upstream is not
consulted). -/
theorem mx_roundtrip (env : Env) :
    (resolve env
      (PhoneBook.empty.update "MX:example.com" ["10:mail.example.com"]).book
      "example.com." QType.MX).1 =
    ⟨RCode.NOERROR, [Answer.mx "example.com." "mail.example.com" 10 60]⟩ :=
  rfl

/-- Claim C9: for every MX query, the answer records are exactly the
parseable `preference:exchangeHost` entries of the available set (each
entry with no colon or a non-integer preference is skipped), and every
well-formed entry of that set still produces its answer record — one
malformed entry never aborts the whole reply. -/
theorem mx_malformed_entry_skipped (env : Env) (pb : PhoneBook) (qname : String) :
    (resolve env pb qname QType.MX).1.answers =
      (mxFetch env pb ("MX:" ++ rstripDot qname) (rstripDot qname)).1.filterMap
        (fun entry => (parseMXEntry entry).map
          (fun px => Answer.mx qname px.2 px.1 60)) ∧
    (∀ e ∈ (mxFetch env pb ("MX:" ++ rstripDot qname) (rstripDot qname)).1,
      ∀ p x, parseMXEntry e = some (p, x) →
        Answer.mx qname x p 60 ∈ (resolve env pb qname QType.MX).1.answers) := by
  refine ⟨rfl, ?_⟩
  intro e he p x hpx
  have h1 : (resolve env pb qname QType.MX).1.answers =
      (mxFetch env pb ("MX:" ++ rstripDot qname) (rstripDot qname)).1.filterMap
        (fun entry => (parseMXEntry entry).map
          (fun px => Answer.mx qname px.2 px.1 60)) := rfl
  rw [h1]
  exact List.mem_filterMap.mpr ⟨e, he, by rw [hpx]; rfl⟩
